import Mathlib

/-!
# Studio editing view of the Open Assessment XBlock (`oa_edit.js`)

A shallow embedding of `OpenAssessment.StudioUI`: the constructor, `load`,
`save`, `cancel` and `showError`.

The three collaborators of the controller are external to the file and are
modelled by what the controller can observe of them:

* the XBlock runtime: `runtime.notify(name, payload)` is recorded in a log;
* the server: `loadXml()` and `updateXml(xml)` return a jQuery promise, which
  settles as resolved (with a value) or rejected (with a message);
* the CodeMirror widget: a string content with `getValue` / `setValue`; the
  widget keeps its text as lines, so what it holds has `\n` line endings
  whatever it was given.

Every observable effect is appended to one chronological log, so that order
and multiplicity of notifications, widget accesses and remote calls can be
stated.

The methods are embedded twice.  `load` and `save` describe one call with its
callbacks: the request settles, and the callback given to `.done` or `.fail`
runs, with nothing in between.  The namespace `InFlight` describes a session
in which `load()` and `save()` return while their request is in flight, so
that edits, further calls and the settlements of the requests come in any
order; a request that settles right after it was issued gives what `load` and
`save` give.
-/

namespace OpenAssessment

/-! ## Data model -/

/-- A settled jQuery promise: resolved with a value or rejected with a
message. -/
inductive Promise (α : Type) where
  | resolved (value : α)
  | rejected (msg : String)
  deriving DecidableEq, Repr

/-- The closures installed as click handlers by the constructor:
`function(eventData) { ui.save(); }` and
`function(eventData) { ui.cancel(); }`. -/
inductive Handler where
  | save
  | cancel
  deriving DecidableEq, Repr

/-- One observable effect.  A JavaScript object literal used as a payload or
as an option record is a list of key/value pairs, the values written as
text (`true` for the boolean). -/
inductive Effect where
  /-- The call `runtime.notify(name, payload)`. -/
  | notify (name : String) (payload : List (String × String))
  /-- The call `codeBox.getValue()`. -/
  | getValue
  /-- The call `codeBox.setValue(xml)`. -/
  | setValue (xml : String)
  /-- The call `server.loadXml()`, with the way its promise settles. -/
  | loadXml (outcome : Promise String)
  /-- The call `server.updateXml(xml)`, with the way its promise settles. -/
  | updateXml (xml : String) (outcome : Promise Unit)
  /-- The call `CodeMirror.fromTextArea(textarea, options)`; the text area is
  given by its position among the descendants of the container. -/
  | fromTextArea (textarea : Nat) (options : List (String × String))
  /-- The call `.click(handler)` reaching the element at a position. -/
  | click (target : Nat) (handler : Handler)
  /-- The author types in the widget (an action of the environment, not of
  the controller). -/
  | edit (xml : String)
  deriving DecidableEq, Repr

/-- The server as the controller sees it: each call returns a settled promise
and a new server state. -/
structure Server (σ : Type) where
  loadXml : σ → Promise String × σ
  updateXml : String → σ → Promise Unit × σ

/-- The state the controller works on: the server behind `this.server`, the
content of `this.codeBox`, and the log of effects (which contains what
`this.runtime` was notified of). -/
structure StudioUI (σ : Type) where
  server : σ
  codeBox : String
  log : List Effect

/-- A descendant of the container element: its tag name, its CSS classes
and, for a text area, its value. -/
structure Element where
  tag : String
  classes : List String
  value : String
  deriving DecidableEq, Repr

/-- A request to the server that has not settled yet. -/
inductive Request where
  | loadXml
  | updateXml (xml : String)
  deriving DecidableEq, Repr

/-! ## The text of the CodeMirror widget -/

/-- The carriage return character. -/
def cr : Char := Char.ofNat 13

/-- The line feed character. -/
def lf : Char := Char.ofNat 10

/-- The text of the widget for a given string: the string is split into lines
at every `\r\n`, `\r` and `\n`, and the lines are joined with `\n`.
`afterCr` tells that the character before was a carriage return. -/
def splitLinesJoin (afterCr : Bool) : List Char → List Char
  | [] => []
  | c :: cs =>
    if c = cr then lf :: splitLinesJoin true cs
    else if c = lf then
      if afterCr then splitLinesJoin false cs else lf :: splitLinesJoin false cs
    else c :: splitLinesJoin false cs

/-- What `getValue()` returns after `setValue(s)`: `s` with `\n` line
endings. -/
def normalizeNewlines (s : String) : String :=
  ⟨splitLinesJoin false s.data⟩

/-! ## jQuery promises and selections -/

/-- The method `promise.done(callback)`: the callback runs when the promise
is resolved. -/
def Promise.done {α S : Type} (p : Promise α) (callback : α → S → S) (s : S) : S :=
  match p with
  | .resolved value => callback value s
  | .rejected _ => s

/-- The method `promise.fail(callback)`: the callback runs when the promise
is rejected. -/
def Promise.fail {α S : Type} (p : Promise α) (callback : String → S → S) (s : S) : S :=
  match p with
  | .resolved _ => s
  | .rejected msg => callback msg s

/-- Positions (counted from `i`) of the elements that carry class `cls`, in
document order. -/
def findFrom (cls : String) : Nat → List Element → List Nat
  | _, [] => []
  | i, e :: es =>
    if cls ∈ e.classes then i :: findFrom cls (i + 1) es else findFrom cls (i + 1) es

/-- The selection `$(element).find('.cls')`: positions of the descendants of
the container that carry the class. -/
def find (element : List Element) (cls : String) : List Nat :=
  findFrom cls 0 element

/-- The selection `.first().get(0)`: the first selected element, if any. -/
def first (sel : List Nat) : Option Nat :=
  sel.head?

/-! ## Primitive effects -/

/-- Append an effect to the log. -/
def record {σ : Type} (e : Effect) (ui : StudioUI σ) : StudioUI σ :=
  { ui with log := ui.log ++ [e] }

/-- The call `runtime.notify(name, payload)`. -/
def notify {σ : Type} (name : String) (payload : List (String × String))
    (ui : StudioUI σ) : StudioUI σ :=
  record (.notify name payload) ui

/-- The call `codeBox.getValue()`: returns the content of the widget (the
field `codeBox` holds it as `getValue()` returns it). -/
def getValue {σ : Type} (ui : StudioUI σ) : String × StudioUI σ :=
  (ui.codeBox, record .getValue ui)

/-- The call `codeBox.setValue(xml)`: replaces the content of the widget; the
widget holds the string with `\n` line endings. -/
def setValue {σ : Type} (xml : String) (ui : StudioUI σ) : StudioUI σ :=
  record (.setValue xml) { ui with codeBox := normalizeNewlines xml }

/-- The call `server.loadXml()`. -/
def callLoadXml {σ : Type} (srv : Server σ) (ui : StudioUI σ) :
    Promise String × StudioUI σ :=
  let r := srv.loadXml ui.server
  (r.1, record (.loadXml r.1) { ui with server := r.2 })

/-- The call `server.updateXml(xml)`. -/
def callUpdateXml {σ : Type} (srv : Server σ) (xml : String) (ui : StudioUI σ) :
    Promise Unit × StudioUI σ :=
  let r := srv.updateXml xml ui.server
  (r.1, record (.updateXml xml r.1) { ui with server := r.2 })

/-- The author replaces the content of the widget by typing or pasting; the
widget holds the text with `\n` line endings. -/
def authorEdit {σ : Type} (xml : String) (ui : StudioUI σ) : StudioUI σ :=
  record (.edit xml) { ui with codeBox := normalizeNewlines xml }

/-! ## The methods of `OpenAssessment.StudioUI.prototype` -/

/-- The method `showError(errorMsg)`. -/
def showError {σ : Type} (errorMsg : String) (ui : StudioUI σ) : StudioUI σ :=
  notify "error" [("msg", errorMsg)] ui

/-- The method `load()`. -/
def load {σ : Type} (srv : Server σ) (ui : StudioUI σ) : StudioUI σ :=
  let r := callLoadXml srv ui
  r.1.fail (fun msg ui => showError msg ui)
    (r.1.done (fun xml ui => setValue xml ui) r.2)

/-- The method `save()`. -/
def save {σ : Type} (srv : Server σ) (ui : StudioUI σ) : StudioUI σ :=
  let ui := notify "save" [("state", "start")] ui
  let v := getValue ui
  let xml := v.1
  let r := callUpdateXml srv xml v.2
  r.1.fail (fun msg ui => showError msg ui)
    (r.1.done (fun _ ui => load srv (notify "save" [("state", "end")] ui)) r.2)

/-- The method `cancel()`. -/
def cancel {σ : Type} (ui : StudioUI σ) : StudioUI σ :=
  notify "cancel" [] ui

/-- What a click handler does when it is invoked. -/
def Handler.run {σ : Type} (srv : Server σ) : Handler → StudioUI σ → StudioUI σ
  | .save => OpenAssessment.save srv
  | .cancel => OpenAssessment.cancel

/-! ## The constructor -/

/-- The call `selection.click(handler)`: one listener on every selected
element. -/
def click {σ : Type} (sel : List Nat) (handler : Handler) (ui : StudioUI σ) : StudioUI σ :=
  sel.foldl (fun ui target => record (.click target handler) ui) ui

/-- The call `CodeMirror.fromTextArea(textarea, options)` of the third-party
widget: it takes the value of the text area as the first text of the widget.
It throws (`none`) when the selection was empty and `.get(0)` gave
`undefined`, and when the element is not a text area and so has no string
value. -/
def fromTextArea {σ : Type} (element : List Element) (textarea : Option Nat)
    (options : List (String × String)) (ui : StudioUI σ) : Option (StudioUI σ) :=
  match textarea with
  | none => none
  | some i =>
    match element.get? i with
    | none => none
    | some e =>
      if e.tag = "textarea" then
        some (record (.fromTextArea i options) { ui with codeBox := normalizeNewlines e.value })
      else none

/-- The constructor `OpenAssessment.StudioUI(runtime, element, server)`, run
on a state whose log holds what happened on the page so far. -/
def StudioUI.new {σ : Type} (element : List Element) (server : σ) (log : List Effect) :
    Option (StudioUI σ) :=
  let ui : StudioUI σ := { server := server, codeBox := "", log := log }
  match fromTextArea element (first (find element "openassessment-editor"))
      [("mode", "xml"), ("lineNumbers", "true"), ("lineWrapping", "true")] ui with
  | none => none
  | some ui =>
    let ui := click (find element "openassessment-save-button") .save ui
    some (click (find element "openassessment-cancel-button") .cancel ui)

/-- Whether the descendant at position `j` exists and carries class `cls`. -/
def hasClass (element : List Element) (j : Nat) (cls : String) : Bool :=
  match element.get? j with
  | some e => decide (cls ∈ e.classes)
  | none => false

/-- Whether the descendant at position `j` exists and is a text area. -/
def isTextArea (element : List Element) (j : Nat) : Bool :=
  match element.get? j with
  | some e => decide (e.tag = "textarea")
  | none => false

/-! ## Reading the log -/

/-- Whether an effect creates a CodeMirror widget. -/
def Effect.isFromTextArea : Effect → Bool
  | .fromTextArea _ _ => true
  | _ => false

/-- The notifications of a log, in order. -/
def notifications : List Effect → List (String × List (String × String))
  | [] => []
  | .notify name payload :: es => (name, payload) :: notifications es
  | _ :: es => notifications es

/-- Whether an effect is a call to `loadXml`. -/
def Effect.isLoadXml : Effect → Bool
  | .loadXml _ => true
  | _ => false

/-- Whether an effect is a call to `updateXml`. -/
def Effect.isUpdateXml : Effect → Bool
  | .updateXml _ _ => true
  | _ => false

/-- Whether an effect is a call to the server. -/
def Effect.isRemote (e : Effect) : Bool :=
  e.isLoadXml || e.isUpdateXml

/-- The arguments of the calls to `updateXml` in a log, in order. -/
def updateXmlCalls : List Effect → List String
  | [] => []
  | .updateXml xml _ :: es => xml :: updateXmlCalls es
  | _ :: es => updateXmlCalls es

/-- Number of calls to `loadXml` in a list of effects. -/
def loadXmlCount (es : List Effect) : Nat :=
  es.countP Effect.isLoadXml

/-- The string an effect brings in line with the server: the value a
`loadXml` resolved with, or the argument of an `updateXml` that resolved. -/
def Effect.synced : Effect → Option String
  | .loadXml (.resolved xml) => some xml
  | .updateXml xml (.resolved _) => some xml
  | _ => none

/-- The string an effect of the controller writes to the widget. -/
def Effect.written : Effect → Option String
  | .setValue xml => some xml
  | _ => none

/-- Whether an effect is an edit by the author. -/
def Effect.isEdit : Effect → Bool
  | .edit _ => true
  | _ => false

/-- The last value `f` selects along a log, if any. -/
def lastSome (f : Effect → Option String) (log : List Effect) : Option String :=
  log.foldl (fun acc e => match f e with
    | some xml => some xml
    | none => acc) none

/-- The last string either loaded from or successfully saved to the server. -/
def lastSynced (log : List Effect) : Option String :=
  lastSome Effect.synced log

/-- The last string the controller wrote to the widget. -/
def lastWritten (log : List Effect) : Option String :=
  lastSome Effect.written log

/-- Whether the author edited after the last effect selected by `mark` (or
at all, when there is none). -/
def editedSince (mark : Effect → Bool) (log : List Effect) : Bool :=
  log.foldl (fun acc e => if e.isEdit then true else if mark e then false else acc) false

/-- Whether the author edited since the last call to the server completed,
resolved or rejected. -/
def editedSinceRemote (log : List Effect) : Bool :=
  editedSince Effect.isRemote log

/-- Whether the author edited since the last call to the server that
resolved. -/
def editedSinceSynced (log : List Effect) : Bool :=
  editedSince (fun e => e.synced.isSome) log

/-! ## A session with requests in flight -/

/-- A session of the editing view seen from the page: the field `server`
holds the requests in flight, in the order they were issued.  A call to the
server enters the log when its promise settles, with the outcome. -/
abbrev Session : Type := StudioUI (List Request)

namespace InFlight

/-- The method `load()`: issues `loadXml()`, attaches its callbacks and
returns. -/
def load (s : Session) : Session :=
  { s with server := s.server ++ [Request.loadXml] }

/-- The method `save()`: notifies, reads the widget, issues `updateXml(xml)`,
attaches its callbacks and returns. -/
def save (s : Session) : Session :=
  let s := notify "save" [("state", "start")] s
  let v := getValue s
  let xml := v.1
  { v.2 with server := v.2.server ++ [Request.updateXml xml] }

/-- The request in flight at position `k`, a `loadXml()` issued by `load()`,
settles: the callbacks attached by `load()` run.  Nothing happens when there
is no such request. -/
def loadXmlSettled (k : Nat) (outcome : Promise String) (s : Session) : Session :=
  match s.server.get? k with
  | some .loadXml =>
    let s := record (.loadXml outcome) { s with server := s.server.eraseIdx k }
    outcome.fail (fun msg s => showError msg s)
      (outcome.done (fun xml s => setValue xml s) s)
  | some (.updateXml _) => s
  | none => s

/-- The request in flight at position `k`, an `updateXml(xml)` issued by
`save()`, settles: the callbacks attached by `save()` run.  Nothing happens
when there is no such request. -/
def updateXmlSettled (k : Nat) (outcome : Promise Unit) (s : Session) : Session :=
  match s.server.get? k with
  | some (.updateXml xml) =>
    let s := record (.updateXml xml outcome) { s with server := s.server.eraseIdx k }
    outcome.fail (fun msg s => showError msg s)
      (outcome.done (fun _ s => load (notify "save" [("state", "end")] s)) s)
  | some .loadXml => s
  | none => s

/-- What happens in a session: a call of `load()`, of `save()` or of
`cancel()`, the author typing, or a request in flight settling. -/
inductive Event where
  | load
  | save
  | cancel
  | edit (xml : String)
  | loadXmlSettled (k : Nat) (outcome : Promise String)
  | updateXmlSettled (k : Nat) (outcome : Promise Unit)
  deriving DecidableEq, Repr

/-- One event of a session. -/
def step (s : Session) : Event → Session
  | .load => load s
  | .save => save s
  | .cancel => OpenAssessment.cancel s
  | .edit xml => authorEdit xml s
  | .loadXmlSettled k outcome => loadXmlSettled k outcome s
  | .updateXmlSettled k outcome => updateXmlSettled k outcome s

/-- A sequence of events, in the order they happen. -/
def run (evs : List Event) (s : Session) : Session :=
  evs.foldl step s

/-- Whether a request is an `updateXml`. -/
def isUpdate : Request → Bool
  | .updateXml _ => true
  | .loadXml => false

/-- Whether an event respects the requests in flight: `save()` is called only
while no request is in flight; `load()` is called and the author edits only
while no `updateXml` is in flight.  A call of `cancel()` and a settlement
always do. -/
def allowed (s : Session) : Event → Bool
  | .save => s.server.isEmpty
  | .cancel => true
  | .load => !s.server.any isUpdate
  | .edit _ => !s.server.any isUpdate
  | .loadXmlSettled _ _ => true
  | .updateXmlSettled _ _ => true

/-- Whether every event of a sequence respects the requests in flight when it
happens. -/
def orderly : List Event → Session → Bool
  | [], _ => true
  | e :: evs, s => allowed s e && orderly evs (step s e)

/-- What the sessions in which every event respects the requests in flight
keep true: the widget holds text with `\n` line endings; the requests in
flight are calls of `loadXml`, or one `updateXml` of what the widget holds;
and when a call to the server has resolved and the author did not edit since
the last one that did, the widget holds the last string loaded or saved, with
`\n` line endings. -/
def Coherent (s : Session) : Prop :=
  normalizeNewlines s.codeBox = s.codeBox ∧
  ((∀ r ∈ s.server, r = Request.loadXml) ∨ s.server = [Request.updateXml s.codeBox]) ∧
  (∀ xml, lastSynced s.log = some xml → editedSinceSynced s.log = false →
    s.codeBox = normalizeNewlines xml)

end InFlight

/-! ## A server for examples -/

/-- State of an example server: the stored definition, and a script that
says for each coming request whether it is rejected (with which message). -/
structure Flaky where
  stored : String
  script : List (Option String)
  deriving DecidableEq, Repr

/-- An example server: a request is rejected when the script says so;
otherwise `loadXml` returns the stored definition and `updateXml` replaces
it. -/
def flaky : Server Flaky where
  loadXml s :=
    match s.script with
    | some msg :: rest => (.rejected msg, { s with script := rest })
    | none :: rest => (.resolved s.stored, { s with script := rest })
    | [] => (.resolved s.stored, s)
  updateXml xml s :=
    match s.script with
    | some msg :: rest => (.rejected msg, { s with script := rest })
    | none :: rest => (.resolved (), { stored := xml, script := rest })
    | [] => (.resolved (), { s with stored := xml })

/-- A container for examples: a heading, two editor text areas, a save
button and a cancel button. -/
def sampleContainer : List Element :=
  [⟨"h2", ["title"], ""⟩,
   ⟨"textarea", ["openassessment-editor"], "<a/>"⟩,
   ⟨"textarea", ["openassessment-editor"], "<b/>"⟩,
   ⟨"button", ["openassessment-save-button"], ""⟩,
   ⟨"button", ["openassessment-cancel-button"], ""⟩]

/-- A container for examples in which the first element of class
`openassessment-editor` is a `div` and the second one a text area. -/
def wrappedContainer : List Element :=
  [⟨"div", ["openassessment-editor"], ""⟩,
   ⟨"textarea", ["openassessment-editor"], "<a/>"⟩,
   ⟨"button", ["openassessment-save-button"], ""⟩,
   ⟨"button", ["openassessment-cancel-button"], ""⟩]

/-- A session for examples, each request settling before the next event:
`load()` resolves with `a`; the author types `b`; `save()` succeeds but its
reload is rejected; the author types `c`; `save()` is rejected. -/
def unsavedSession : Session :=
  InFlight.run
    [.load, .loadXmlSettled 0 (.resolved "a"), .edit "b",
     .save, .updateXmlSettled 0 (.resolved ()), .loadXmlSettled 0 (.rejected "down"),
     .edit "c", .save, .updateXmlSettled 0 (.rejected "busy")]
    ⟨[], "", []⟩

/-- A session for examples with overlapping requests and no edit: `load()` is
called on page load; `save()` is called on the first text `init` before the
request settles; then the `loadXml` resolves with `old`, the `updateXml`
resolves, and the reload is rejected. -/
def overlappedSession : Session :=
  InFlight.run
    [.load, .save, .loadXmlSettled 0 (.resolved "old"),
     .updateXmlSettled 0 (.resolved ()), .loadXmlSettled 0 (.rejected "down")]
    ⟨[], "init", []⟩

/-! ## Theorems -/

/-- A string without carriage return is the text of the widget as it
stands. -/
theorem splitLinesJoin_of_not_mem (cs : List Char) (h : cr ∉ cs) :
    splitLinesJoin false cs = cs := by
  induction cs with
  | nil => rfl
  | cons c cs ih =>
    have hc : c ≠ cr := fun hc => h (by simp [hc])
    have h2 : cr ∉ cs := fun hm => h (List.mem_cons_of_mem _ hm)
    have hlf : lf ≠ cr := by decide
    by_cases hl : c = lf
    · subst hl
      simp [splitLinesJoin, hlf, ih h2]
    · simp [splitLinesJoin, hc, hl, ih h2]

/-- The text of the widget holds no carriage return. -/
theorem not_mem_splitLinesJoin (cs : List Char) (afterCr : Bool) :
    cr ∉ splitLinesJoin afterCr cs := by
  have hlf : cr ≠ lf := by decide
  induction cs generalizing afterCr with
  | nil => simp [splitLinesJoin]
  | cons c cs ih =>
    by_cases hc : c = cr
    · simp [splitLinesJoin, hc, hlf, ih]
    · by_cases hl : c = lf
      · subst hl
        cases afterCr <;> simp [splitLinesJoin, hlf, Ne.symm hlf, ih]
      · simp [splitLinesJoin, hc, hl, Ne.symm hc, ih]

/-- Giving the widget its own text changes nothing. -/
theorem normalizeNewlines_idem (s : String) :
    normalizeNewlines (normalizeNewlines s) = normalizeNewlines s := by
  simp [normalizeNewlines, splitLinesJoin_of_not_mem _ (not_mem_splitLinesJoin s.data false)]

/-- A string without carriage return is held by the widget as it stands. -/
theorem normalizeNewlines_of_not_mem (s : String) (h : cr ∉ s.data) :
    normalizeNewlines s = s := by
  simp [normalizeNewlines, splitLinesJoin_of_not_mem _ h]

/-- Number of times a position occurs in a selection. -/
theorem count_findFrom (cls : String) (j : Nat) (es : List Element) (i : Nat) :
    (findFrom cls i es).count j = if i ≤ j ∧ hasClass es (j - i) cls = true then 1 else 0 := by
  induction es generalizing i with
  | nil => simp [findFrom, hasClass]
  | cons e es ih =>
    have hsucc : ∀ k, hasClass (e :: es) (k + 1) cls = hasClass es k cls := by
      intro k; simp [hasClass]
    have hzero : hasClass (e :: es) 0 cls = decide (cls ∈ e.classes) := by
      simp [hasClass]
    rcases Nat.lt_trichotomy j i with hlt | heq | hgt
    · have h1 : ¬ i ≤ j := by omega
      have h2 : ¬ i + 1 ≤ j := by omega
      have h3 : ¬ i = j := by omega
      by_cases hc : cls ∈ e.classes <;>
        simp [findFrom, hc, ih, h1, h2, h3, List.count_cons]
    · subst heq
      by_cases hc : cls ∈ e.classes <;>
        simp [findFrom, hc, ih, hzero, List.count_cons]
    · obtain ⟨k, rfl⟩ : ∃ k, j = i + 1 + k := ⟨j - (i + 1), by omega⟩
      have h1 : i ≤ i + 1 + k := by omega
      have h3 : ¬ i = i + 1 + k := by omega
      have h4 : i + 1 + k - i = k + 1 := by omega
      by_cases hc : cls ∈ e.classes <;>
        simp [findFrom, hc, ih, h1, h3, h4, hsucc, List.count_cons]

/-- The first position of a selection carries the class and no earlier
position (from `i` on) does. -/
theorem head_findFrom (cls : String) (es : List Element) (i j : Nat)
    (h : (findFrom cls i es).head? = some j) :
    i ≤ j ∧ hasClass es (j - i) cls = true ∧ ∀ k, k < j - i → hasClass es k cls = false := by
  induction es generalizing i with
  | nil => simp [findFrom] at h
  | cons e es ih =>
    by_cases hc : cls ∈ e.classes
    · simp [findFrom, hc] at h
      subst h
      simp [hasClass, hc]
    · simp only [findFrom, hc, if_false] at h
      obtain ⟨h1, h2, h3⟩ := ih (i + 1) h
      obtain ⟨k, rfl⟩ : ∃ k, j = i + 1 + k := ⟨j - (i + 1), by omega⟩
      have h4 : i + 1 + k - i = k + 1 := by omega
      have h5 : i + 1 + k - (i + 1) = k := by omega
      rw [h5] at h2 h3
      rw [h4]
      refine ⟨by omega, by simpa [hasClass] using h2, ?_⟩
      intro m hm
      cases m with
      | zero => simp [hasClass, hc]
      | succ m => simpa [hasClass] using h3 m (by omega)

/-- A selection is not empty when some element carries the class. -/
theorem findFrom_ne_nil (cls : String) (es : List Element) (i : Nat)
    (h : ∃ e ∈ es, cls ∈ e.classes) : findFrom cls i es ≠ [] := by
  induction es generalizing i with
  | nil => simp at h
  | cons e es ih =>
    by_cases hc : cls ∈ e.classes
    · simp [findFrom, hc]
    · simp only [findFrom, hc, if_false]
      apply ih
      obtain ⟨e1, he1, hc1⟩ := h
      rcases List.mem_cons.mp he1 with rfl | hmem
      · exact absurd hc1 hc
      · exact ⟨e1, hmem, hc1⟩

/-- The first element of a selection is the first position that carries the
class. -/
theorem first_find (cls : String) (element : List Element) (i : Nat)
    (hcls : hasClass element i cls = true)
    (hfirst : ∀ k, k < i → hasClass element k cls = false) :
    first (find element cls) = some i := by
  have hex : ∃ e ∈ element, cls ∈ e.classes := by
    unfold hasClass at hcls
    cases hg : element.get? i with
    | none => rw [hg] at hcls; exact absurd hcls (by simp)
    | some e =>
      rw [hg] at hcls
      exact ⟨e, List.get?_mem hg, by simpa using hcls⟩
  have hne := findFrom_ne_nil cls element 0 hex
  obtain ⟨j, hj⟩ : ∃ j, (findFrom cls 0 element).head? = some j := by
    cases hf : findFrom cls 0 element with
    | nil => exact absurd hf hne
    | cons a l => exact ⟨a, rfl⟩
  obtain ⟨_, hjc, hjf⟩ := head_findFrom cls element 0 j hj
  simp only [Nat.sub_zero] at hjc hjf
  have hij : i = j := by
    rcases Nat.lt_trichotomy i j with hlt | heq | hgt
    · rw [hjf i hlt] at hcls; exact absurd hcls (by decide)
    · exact heq
    · rw [hfirst j hgt] at hjc; exact absurd hjc (by decide)
  simp only [first, find, hj, hij]

/-- The log after `.click(handler)` on a selection. -/
theorem click_log {σ : Type} (sel : List Nat) (handler : Handler) (ui : StudioUI σ) :
    (click sel handler ui).log = ui.log ++ sel.map (fun t => Effect.click t handler) := by
  unfold click
  induction sel generalizing ui with
  | nil => simp
  | cons t sel ih =>
    rw [List.foldl_cons, ih]
    simp [record]

/-- Registering click listeners leaves the widget and the server alone. -/
theorem click_frame {σ : Type} (sel : List Nat) (handler : Handler) (ui : StudioUI σ) :
    (click sel handler ui).codeBox = ui.codeBox ∧ (click sel handler ui).server = ui.server := by
  unfold click
  induction sel generalizing ui with
  | nil => simp
  | cons t sel ih =>
    rw [List.foldl_cons, (ih _).1, (ih _).2]
    simp [record]

/-- Click registrations are not notifications. -/
theorem notifications_clicks (sel : List Nat) (handler : Handler) (rest : List Effect) :
    notifications (sel.map (fun t => Effect.click t handler) ++ rest) = notifications rest := by
  induction sel with
  | nil => simp
  | cons t sel ih => simp [notifications, ih]

/-- Click registrations create no widget. -/
theorem countP_fromTextArea_clicks (sel : List Nat) (handler : Handler) :
    (sel.map (fun t => Effect.click t handler)).countP Effect.isFromTextArea = 0 := by
  induction sel with
  | nil => simp
  | cons t sel ih => simp [List.countP_cons, Effect.isFromTextArea, ih]

/-- Number of listeners with a handler on a position, among the
registrations of that handler on a selection. -/
theorem count_clicks_same (sel : List Nat) (handler : Handler) (j : Nat) :
    (sel.map (fun t => Effect.click t handler)).count (Effect.click j handler) = sel.count j := by
  induction sel with
  | nil => simp
  | cons t sel ih =>
    by_cases h : t = j
    · subst h; simp [List.count_cons, ih]
    · have h2 : ¬ Effect.click t handler = Effect.click j handler := by
        intro hh; injection hh with h3 _; exact h h3
      simp [List.count_cons, ih, h, h2]

/-- Registrations of one handler hold no listener with another handler. -/
theorem count_clicks_other (sel : List Nat) (handler other : Handler) (j : Nat)
    (h : handler ≠ other) :
    (sel.map (fun t => Effect.click t handler)).count (Effect.click j other) = 0 := by
  induction sel with
  | nil => simp
  | cons t sel ih =>
    have h2 : ¬ Effect.click t handler = Effect.click j other := by
      intro hh; injection hh with _ h3; exact h h3
    simp [List.count_cons, ih, h2]

/-- C1: when `updateXml` resolves, `save()` adds to the log, in this order,
the notification `save {state: start}`, the read of the widget, the call to
`updateXml`, the notification `save {state: end}` and a call to `loadXml`;
what `save()` added holds exactly one `start` and exactly one `end`
notification. -/
theorem save_success_order {σ : Type} (srv : Server σ) (ui : StudioUI σ)
    (h : (srv.updateXml ui.codeBox ui.server).1 = .resolved ()) :
    ∃ (added rest : List Effect) (outcome : Promise String),
      (save srv ui).log = ui.log ++ added ∧
      added = [Effect.notify "save" [("state", "start")], Effect.getValue,
          Effect.updateXml ui.codeBox (.resolved ()),
          Effect.notify "save" [("state", "end")], Effect.loadXml outcome] ++ rest ∧
      added.count (Effect.notify "save" [("state", "start")]) = 1 ∧
      added.count (Effect.notify "save" [("state", "end")]) = 1 ∧
      loadXmlCount added = 1 := by
  cases hl : (srv.loadXml (srv.updateXml ui.codeBox ui.server).2).1 with
  | resolved xml =>
    refine ⟨_, [Effect.setValue xml], .resolved xml, ?_, rfl, ?_, ?_, ?_⟩
    · simp [save, load, callUpdateXml, callLoadXml, getValue, record, Promise.done,
        Promise.fail, showError, setValue, notify, h, hl]
    · simp [List.count_cons]
    · simp [List.count_cons]
    · simp [loadXmlCount, Effect.isLoadXml]
  | rejected msg =>
    refine ⟨_, [Effect.notify "error" [("msg", msg)]], .rejected msg, ?_, rfl, ?_, ?_, ?_⟩
    · simp [save, load, callUpdateXml, callLoadXml, getValue, record, Promise.done,
        Promise.fail, showError, setValue, notify, h, hl]
    · simp [List.count_cons]
    · simp [List.count_cons]
    · simp [loadXmlCount, Effect.isLoadXml]

/-- Witness of C1: the example server accepts the update of `<a/>`. -/
theorem save_success_order_witness :
    (flaky.updateXml "<a/>" ⟨"", []⟩).1 = .resolved () ∧
    ∃ (added rest : List Effect) (outcome : Promise String),
      (save flaky ⟨⟨"", []⟩, "<a/>", []⟩).log = [] ++ added ∧
      added = [Effect.notify "save" [("state", "start")], Effect.getValue,
          Effect.updateXml "<a/>" (.resolved ()),
          Effect.notify "save" [("state", "end")], Effect.loadXml outcome] ++ rest ∧
      added.count (Effect.notify "save" [("state", "start")]) = 1 ∧
      added.count (Effect.notify "save" [("state", "end")]) = 1 ∧
      loadXmlCount added = 1 :=
  ⟨rfl, save_success_order flaky ⟨⟨"", []⟩, "<a/>", []⟩ rfl⟩

/-- C2: when `updateXml` is rejected with `msg`, `save()` adds to the log the
notification `save {state: start}`, the read of the widget, the call to
`updateXml` and the notification `error {msg: msg}`, and nothing else: its
notifications are exactly `start` then `error` with the same message, and
there is no `save {state: end}`. -/
theorem save_failure_notifications {σ : Type} (srv : Server σ) (ui : StudioUI σ)
    (msg : String) (h : (srv.updateXml ui.codeBox ui.server).1 = .rejected msg) :
    ∃ added : List Effect,
      (save srv ui).log = ui.log ++ added ∧
      added = [Effect.notify "save" [("state", "start")], Effect.getValue,
          Effect.updateXml ui.codeBox (.rejected msg),
          Effect.notify "error" [("msg", msg)]] ∧
      notifications added = [("save", [("state", "start")]), ("error", [("msg", msg)])] ∧
      Effect.notify "save" [("state", "end")] ∉ added := by
  refine ⟨_, ?_, rfl, ?_, ?_⟩
  · simp [save, callUpdateXml, getValue, record, Promise.done, Promise.fail, showError,
      notify, h]
  · simp [notifications]
  · simp

/-- Witness of C2: the example server rejects the update with `busy`. -/
theorem save_failure_notifications_witness :
    (flaky.updateXml "<a/>" ⟨"", [some "busy"]⟩).1 = .rejected "busy" ∧
    ∃ added : List Effect,
      (save flaky ⟨⟨"", [some "busy"]⟩, "<a/>", []⟩).log = [] ++ added ∧
      added = [Effect.notify "save" [("state", "start")], Effect.getValue,
          Effect.updateXml "<a/>" (.rejected "busy"),
          Effect.notify "error" [("msg", "busy")]] ∧
      notifications added = [("save", [("state", "start")]), ("error", [("msg", "busy")])] ∧
      Effect.notify "save" [("state", "end")] ∉ added :=
  ⟨rfl, save_failure_notifications flaky ⟨⟨"", [some "busy"]⟩, "<a/>", []⟩ "busy" rfl⟩

/-- C3: whatever the server does, `save()` first notifies
`save {state: start}`, then reads the widget, then calls `updateXml` with the
content the widget held when `save()` was invoked, unchanged; it is its only
call to `updateXml`. -/
theorem save_updateXml_once (σ : Type) (srv : Server σ) (ui : StudioUI σ) :
    ∃ (added rest : List Effect) (outcome : Promise Unit),
      (save srv ui).log = ui.log ++ added ∧
      added = [Effect.notify "save" [("state", "start")], Effect.getValue,
          Effect.updateXml ui.codeBox outcome] ++ rest ∧
      updateXmlCalls added = [ui.codeBox] := by
  cases h : (srv.updateXml ui.codeBox ui.server).1 with
  | rejected msg =>
    refine ⟨_, [Effect.notify "error" [("msg", msg)]], .rejected msg, ?_, rfl, ?_⟩
    · simp [save, callUpdateXml, getValue, record, Promise.done, Promise.fail, showError,
        notify, h]
    · simp [updateXmlCalls]
  | resolved u =>
    cases hl : (srv.loadXml (srv.updateXml ui.codeBox ui.server).2).1 with
    | resolved xml =>
      refine ⟨_, [Effect.notify "save" [("state", "end")], Effect.loadXml (.resolved xml),
        Effect.setValue xml], .resolved u, ?_, rfl, ?_⟩
      · simp [save, load, callUpdateXml, callLoadXml, getValue, record, Promise.done,
          Promise.fail, showError, setValue, notify, h, hl]
      · simp [updateXmlCalls]
    | rejected msg =>
      refine ⟨_, [Effect.notify "save" [("state", "end")], Effect.loadXml (.rejected msg),
        Effect.notify "error" [("msg", msg)]], .resolved u, ?_, rfl, ?_⟩
      · simp [save, load, callUpdateXml, callLoadXml, getValue, record, Promise.done,
          Promise.fail, showError, setValue, notify, h, hl]
      · simp [updateXmlCalls]

/-- C4, as stated, fails: the server returns a definition with a Windows
line ending, `load()` gives it to the widget, and the widget then holds it
with a `\n` line ending, which is another string. -/
theorem load_carriage_return :
    (flaky.loadXml ⟨"<a>\r\n</a>", []⟩).1 = .resolved "<a>\r\n</a>" ∧
    (load flaky ⟨⟨"<a>\r\n</a>", []⟩, "old", []⟩).codeBox = "<a>\n</a>" ∧
    (load flaky ⟨⟨"<a>\r\n</a>", []⟩, "old", []⟩).codeBox ≠ "<a>\r\n</a>" := by
  decide

/-- C4, amended: when `loadXml` resolves with `xml`, `load()` gives exactly
`xml` to the widget with `setValue`, after which the widget holds `xml` with
`\n` line endings, whatever it held before: exactly `xml` when `xml` has no
carriage return.  `load()` has notified nothing: it added to the log the call
to `loadXml` and the write to the widget. -/
theorem load_success_newlines {σ : Type} (srv : Server σ) (ui : StudioUI σ) (xml : String)
    (h : (srv.loadXml ui.server).1 = .resolved xml) :
    (load srv ui).codeBox = normalizeNewlines xml ∧
    (cr ∉ xml.data → (load srv ui).codeBox = xml) ∧
    ∃ added : List Effect,
      (load srv ui).log = ui.log ++ added ∧
      added = [Effect.loadXml (.resolved xml), Effect.setValue xml] ∧
      notifications added = [] := by
  have hc : (load srv ui).codeBox = normalizeNewlines xml := by
    simp [load, callLoadXml, record, Promise.done, Promise.fail, setValue, h]
  refine ⟨hc, ?_, _, ?_, rfl, ?_⟩
  · intro hcr
    rw [hc, normalizeNewlines_of_not_mem xml hcr]
  · simp [load, callLoadXml, record, Promise.done, Promise.fail, setValue, h]
  · simp [notifications]

/-- Witness of C4, amended: the example server returns its stored
definition, which has no carriage return. -/
theorem load_success_newlines_witness :
    (flaky.loadXml ⟨"<openassessment/>", []⟩).1 = .resolved "<openassessment/>" ∧
    cr ∉ ("<openassessment/>" : String).data ∧
    (load flaky ⟨⟨"<openassessment/>", []⟩, "old", []⟩).codeBox =
      normalizeNewlines "<openassessment/>" ∧
    (cr ∉ ("<openassessment/>" : String).data →
      (load flaky ⟨⟨"<openassessment/>", []⟩, "old", []⟩).codeBox = "<openassessment/>") ∧
    ∃ added : List Effect,
      (load flaky ⟨⟨"<openassessment/>", []⟩, "old", []⟩).log = [] ++ added ∧
      added = [Effect.loadXml (.resolved "<openassessment/>"),
        Effect.setValue "<openassessment/>"] ∧
      notifications added = [] :=
  ⟨rfl, by decide,
    load_success_newlines flaky ⟨⟨"<openassessment/>", []⟩, "old", []⟩
      "<openassessment/>" rfl⟩

/-- C5: when `loadXml` is rejected with `msg`, `load()` notifies exactly once,
`error {msg: msg}` with the same message, and the widget keeps its
content. -/
theorem load_failure {σ : Type} (srv : Server σ) (ui : StudioUI σ) (msg : String)
    (h : (srv.loadXml ui.server).1 = .rejected msg) :
    (load srv ui).codeBox = ui.codeBox ∧
    ∃ added : List Effect,
      (load srv ui).log = ui.log ++ added ∧
      added = [Effect.loadXml (.rejected msg), Effect.notify "error" [("msg", msg)]] ∧
      notifications added = [("error", [("msg", msg)])] := by
  refine ⟨?_, _, ?_, rfl, ?_⟩
  · simp [load, callLoadXml, record, Promise.done, Promise.fail, showError, notify, h]
  · simp [load, callLoadXml, record, Promise.done, Promise.fail, showError, notify, h]
  · simp [notifications]

/-- Witness of C5: the example server rejects the request with `down`. -/
theorem load_failure_witness :
    (flaky.loadXml ⟨"<a/>", [some "down"]⟩).1 = .rejected "down" ∧
    (load flaky ⟨⟨"<a/>", [some "down"]⟩, "old", []⟩).codeBox = "old" ∧
    ∃ added : List Effect,
      (load flaky ⟨⟨"<a/>", [some "down"]⟩, "old", []⟩).log = [] ++ added ∧
      added = [Effect.loadXml (.rejected "down"), Effect.notify "error" [("msg", "down")]] ∧
      notifications added = [("error", [("msg", "down")])] :=
  ⟨rfl, load_failure flaky ⟨⟨"<a/>", [some "down"]⟩, "old", []⟩ "down" rfl⟩

/-- C6: in every state, `cancel()` adds to the log the single notification
`cancel {}` with an empty payload, so it calls neither `loadXml` nor
`updateXml`, and it leaves the content of the widget and the server as they
were. -/
theorem cancel_effects (σ : Type) (ui : StudioUI σ) :
    ∃ added : List Effect,
      (cancel ui).log = ui.log ++ added ∧
      added = [Effect.notify "cancel" []] ∧
      (∀ e ∈ added, e.isRemote = false) ∧
      (cancel ui).codeBox = ui.codeBox ∧
      (cancel ui).server = ui.server := by
  refine ⟨_, ?_, rfl, ?_, ?_, ?_⟩ <;>
    simp [cancel, notify, record, Effect.isRemote, Effect.isLoadXml, Effect.isUpdateXml]

/-- C9: when `updateXml` is rejected, `save()` does not call `loadXml`, calls
`updateXml` once and no more, and leaves in the widget the content it held
when `save()` was invoked. -/
theorem save_failure_keeps_edits {σ : Type} (srv : Server σ) (ui : StudioUI σ)
    (msg : String) (h : (srv.updateXml ui.codeBox ui.server).1 = .rejected msg) :
    ∃ added : List Effect,
      (save srv ui).log = ui.log ++ added ∧
      loadXmlCount added = 0 ∧
      updateXmlCalls added = [ui.codeBox] ∧
      (save srv ui).codeBox = ui.codeBox := by
  refine ⟨[Effect.notify "save" [("state", "start")], Effect.getValue,
    Effect.updateXml ui.codeBox (.rejected msg), Effect.notify "error" [("msg", msg)]],
    ?_, ?_, ?_, ?_⟩
  · simp [save, callUpdateXml, getValue, record, Promise.done, Promise.fail, showError,
      notify, h]
  · simp [loadXmlCount, Effect.isLoadXml]
  · simp [updateXmlCalls]
  · simp [save, callUpdateXml, getValue, record, Promise.done, Promise.fail, showError,
      notify, h]

/-- Witness of C9: the example server rejects the update of the edited
text. -/
theorem save_failure_keeps_edits_witness :
    (flaky.updateXml "edited" ⟨"<a/>", [some "busy"]⟩).1 = .rejected "busy" ∧
    ∃ added : List Effect,
      (save flaky ⟨⟨"<a/>", [some "busy"]⟩, "edited", []⟩).log = [] ++ added ∧
      loadXmlCount added = 0 ∧
      updateXmlCalls added = ["edited"] ∧
      (save flaky ⟨⟨"<a/>", [some "busy"]⟩, "edited", []⟩).codeBox = "edited" :=
  ⟨rfl, save_failure_keeps_edits flaky ⟨⟨"<a/>", [some "busy"]⟩, "edited", []⟩ "busy" rfl⟩

/-- C10: when `updateXml` resolves and the `loadXml` that follows is rejected
with `msg`, the notifications of `save()` are exactly `save {state: start}`,
`save {state: end}` and `error {msg: msg}`, in this order, and the widget
keeps the content it held when `save()` was invoked. -/
theorem save_reload_failure {σ : Type} (srv : Server σ) (ui : StudioUI σ) (msg : String)
    (h : (srv.updateXml ui.codeBox ui.server).1 = .resolved ())
    (hl : (srv.loadXml (srv.updateXml ui.codeBox ui.server).2).1 = .rejected msg) :
    ∃ added : List Effect,
      (save srv ui).log = ui.log ++ added ∧
      notifications added = [("save", [("state", "start")]), ("save", [("state", "end")]),
        ("error", [("msg", msg)])] ∧
      (save srv ui).codeBox = ui.codeBox := by
  refine ⟨[Effect.notify "save" [("state", "start")], Effect.getValue,
    Effect.updateXml ui.codeBox (.resolved ()), Effect.notify "save" [("state", "end")],
    Effect.loadXml (.rejected msg), Effect.notify "error" [("msg", msg)]], ?_, ?_, ?_⟩
  · simp [save, load, callUpdateXml, callLoadXml, getValue, record, Promise.done,
      Promise.fail, showError, setValue, notify, h, hl]
  · simp [notifications]
  · simp [save, load, callUpdateXml, callLoadXml, getValue, record, Promise.done,
      Promise.fail, showError, setValue, notify, h, hl]

/-- Witness of C10: the example server accepts the update and rejects the
request that follows with `down`. -/
theorem save_reload_failure_witness :
    (flaky.updateXml "edited" ⟨"<a/>", [none, some "down"]⟩).1 = .resolved () ∧
    (flaky.loadXml (flaky.updateXml "edited" ⟨"<a/>", [none, some "down"]⟩).2).1
      = .rejected "down" ∧
    ∃ added : List Effect,
      (save flaky ⟨⟨"<a/>", [none, some "down"]⟩, "edited", []⟩).log = [] ++ added ∧
      notifications added = [("save", [("state", "start")]), ("save", [("state", "end")]),
        ("error", [("msg", "down")])] ∧
      (save flaky ⟨⟨"<a/>", [none, some "down"]⟩, "edited", []⟩).codeBox = "edited" :=
  ⟨rfl, rfl,
    save_reload_failure flaky ⟨⟨"<a/>", [none, some "down"]⟩, "edited", []⟩ "down" rfl rfl⟩


/-- C8, as stated, fails: the example container holds an
`.openassessment-editor` text area, at position 1, after a `div` of the same
class; the constructor gives the `div` to `CodeMirror.fromTextArea`, which
throws, so no widget is attached to the text area and no listener is
registered. -/
theorem constructor_wrapped_editor :
    hasClass wrappedContainer 1 "openassessment-editor" = true ∧
    isTextArea wrappedContainer 1 = true ∧
    isTextArea wrappedContainer 0 = false ∧
    first (find wrappedContainer "openassessment-editor") = some 0 ∧
    StudioUI.new wrappedContainer (⟨"a", []⟩ : Flaky) [] = none :=
  ⟨by decide, by decide, by decide, by decide, rfl⟩

/-- C8, amended: when the first `.openassessment-editor` element of the
container, at position `i`, is a text area, the constructor succeeds and adds
to the log one call of `CodeMirror.fromTextArea`, on that element, then one
click listener invoking `save()` on each `.openassessment-save-button`
element and one click listener invoking `cancel()` on each
`.openassessment-cancel-button` element, and nothing else: no notification
and no call to the server. -/
theorem constructor_effects {σ : Type} (srv : Server σ) (element : List Element)
    (server : σ) (log : List Effect) (i : Nat)
    (hcls : hasClass element i "openassessment-editor" = true)
    (hfirst : ∀ k, k < i → hasClass element k "openassessment-editor" = false)
    (harea : isTextArea element i = true) :
    ∃ (ui : StudioUI σ) (added : List Effect),
      StudioUI.new element server log = some ui ∧
      ui.log = log ++ added ∧
      added = Effect.fromTextArea i
          [("mode", "xml"), ("lineNumbers", "true"), ("lineWrapping", "true")] ::
        ((find element "openassessment-save-button").map (fun t => Effect.click t .save) ++
         (find element "openassessment-cancel-button").map (fun t => Effect.click t .cancel)) ∧
      added.countP Effect.isFromTextArea = 1 ∧
      (∀ j, added.count (Effect.click j .save) =
        if hasClass element j "openassessment-save-button" = true then 1 else 0) ∧
      (∀ j, added.count (Effect.click j .cancel) =
        if hasClass element j "openassessment-cancel-button" = true then 1 else 0) ∧
      Handler.run srv .save = save srv ∧
      Handler.run srv .cancel = cancel ∧
      notifications added = [] ∧
      (∀ e ∈ added, e.isRemote = false) := by
  have hi := first_find "openassessment-editor" element i hcls hfirst
  obtain ⟨e, he, htag⟩ : ∃ e, element.get? i = some e ∧ e.tag = "textarea" := by
    unfold isTextArea at harea
    cases hg : element.get? i with
    | none => rw [hg] at harea; exact absurd harea (by simp)
    | some e =>
      rw [hg] at harea
      exact ⟨e, rfl, by simpa using harea⟩
  refine ⟨click (find element "openassessment-cancel-button") .cancel
      (click (find element "openassessment-save-button") .save
        (record (.fromTextArea i
          [("mode", "xml"), ("lineNumbers", "true"), ("lineWrapping", "true")])
          { server := server, codeBox := normalizeNewlines e.value, log := log })),
    _, ?_, ?_, rfl, ?_, ?_, ?_, rfl, rfl, ?_, ?_⟩
  · simp only [StudioUI.new, fromTextArea, hi, he, htag, if_true]
  · simp [click_log, record]
  · simp [List.countP_cons, Effect.isFromTextArea, countP_fromTextArea_clicks]
  · intro j
    have hc := count_findFrom "openassessment-save-button" j element 0
    simp only [Nat.zero_le, true_and, Nat.sub_zero] at hc
    rw [List.count_cons, List.count_append, count_clicks_same,
      count_clicks_other _ _ _ _ (by decide)]
    simp [find, hc]
  · intro j
    have hc := count_findFrom "openassessment-cancel-button" j element 0
    simp only [Nat.zero_le, true_and, Nat.sub_zero] at hc
    rw [List.count_cons, List.count_append, count_clicks_same,
      count_clicks_other _ _ _ _ (by decide)]
    simp [find, hc]
  · have h0 := notifications_clicks (find element "openassessment-cancel-button") .cancel []
    simp only [List.append_nil] at h0
    simp [notifications, notifications_clicks, h0]
  · intro e he
    simp only [List.mem_cons, List.mem_append, List.mem_map] at he
    rcases he with rfl | ⟨t, _, rfl⟩ | ⟨t, _, rfl⟩ <;>
      simp [Effect.isRemote, Effect.isLoadXml, Effect.isUpdateXml]

/-- Witness of C8, amended: in the example container the first editor
element, at position 1 after a heading, is a text area. -/
theorem constructor_effects_witness :
    hasClass sampleContainer 1 "openassessment-editor" = true ∧
    (∀ k, k < 1 → hasClass sampleContainer k "openassessment-editor" = false) ∧
    isTextArea sampleContainer 1 = true ∧
    ∃ (ui : StudioUI Flaky) (added : List Effect),
      StudioUI.new sampleContainer ⟨"a", []⟩ [] = some ui ∧
      ui.log = [] ++ added ∧
      added = Effect.fromTextArea 1
          [("mode", "xml"), ("lineNumbers", "true"), ("lineWrapping", "true")] ::
        ((find sampleContainer "openassessment-save-button").map
            (fun t => Effect.click t .save) ++
         (find sampleContainer "openassessment-cancel-button").map
            (fun t => Effect.click t .cancel)) ∧
      added.countP Effect.isFromTextArea = 1 ∧
      (∀ j, added.count (Effect.click j .save) =
        if hasClass sampleContainer j "openassessment-save-button" = true then 1 else 0) ∧
      (∀ j, added.count (Effect.click j .cancel) =
        if hasClass sampleContainer j "openassessment-cancel-button" = true then 1 else 0) ∧
      Handler.run flaky .save = save flaky ∧
      Handler.run flaky .cancel = cancel ∧
      notifications added = [] ∧
      (∀ e ∈ added, e.isRemote = false) :=
  ⟨by decide, by decide, by decide,
    constructor_effects flaky sampleContainer ⟨"a", []⟩ [] 1 (by decide) (by decide)
      (by decide)⟩

/-- The constructor on the example container: the widget is attached to the
first of the two editor text areas and takes its value. -/
theorem constructor_sample :
    (StudioUI.new sampleContainer (⟨"a", []⟩ : Flaky) []).map (fun ui => (ui.log, ui.codeBox)) =
      some ([Effect.fromTextArea 1
          [("mode", "xml"), ("lineNumbers", "true"), ("lineWrapping", "true")],
        Effect.click 3 .save, Effect.click 4 .cancel], "<a/>") := by
  decide

/-- The constructor on a container without editor element: the call of
`CodeMirror.fromTextArea` fails and no listener is installed. -/
theorem constructor_without_editor :
    StudioUI.new [⟨"button", ["openassessment-save-button"], ""⟩] (⟨"a", []⟩ : Flaky) [] =
      none := by
  rfl

namespace InFlight

/-- A call of `load()` whose request settles at once gives the log and the
widget of `OpenAssessment.load`. -/
theorem load_settled_at_once {σ : Type} (srv : Server σ) (ui : StudioUI σ) :
    (loadXmlSettled 0 (srv.loadXml ui.server).1 (load ⟨[], ui.codeBox, ui.log⟩)).log =
      (OpenAssessment.load srv ui).log ∧
    (loadXmlSettled 0 (srv.loadXml ui.server).1 (load ⟨[], ui.codeBox, ui.log⟩)).codeBox =
      (OpenAssessment.load srv ui).codeBox := by
  cases h : (srv.loadXml ui.server).1 <;>
    simp [loadXmlSettled, load, OpenAssessment.load, callLoadXml, record, Promise.done,
      Promise.fail, showError, setValue, notify, h]

/-- A call of `save()` whose requests settle at once gives the log and the
widget of `OpenAssessment.save`. -/
theorem save_settled_at_once {σ : Type} (srv : Server σ) (ui : StudioUI σ) :
    (loadXmlSettled 0 (srv.loadXml (srv.updateXml ui.codeBox ui.server).2).1
      (updateXmlSettled 0 (srv.updateXml ui.codeBox ui.server).1
        (save ⟨[], ui.codeBox, ui.log⟩))).log = (OpenAssessment.save srv ui).log ∧
    (loadXmlSettled 0 (srv.loadXml (srv.updateXml ui.codeBox ui.server).2).1
      (updateXmlSettled 0 (srv.updateXml ui.codeBox ui.server).1
        (save ⟨[], ui.codeBox, ui.log⟩))).codeBox = (OpenAssessment.save srv ui).codeBox := by
  cases h : (srv.updateXml ui.codeBox ui.server).1 <;>
    cases hl : (srv.loadXml (srv.updateXml ui.codeBox ui.server).2).1 <;>
    simp [loadXmlSettled, updateXmlSettled, load, save, OpenAssessment.load,
      OpenAssessment.save, callLoadXml, callUpdateXml, getValue, record, Promise.done,
      Promise.fail, showError, setValue, notify, h, hl]

/-- An event that respects the requests in flight keeps the session
coherent. -/
theorem step_coherent (s : Session) (e : Event) (hal : allowed s e = true)
    (h : Coherent s) : Coherent (step s e) := by
  obtain ⟨hn, hp, hi⟩ := h
  cases e with
  | load =>
    refine ⟨hn, Or.inl ?_, hi⟩
    rcases hp with hl | hu
    · intro r hr
      simp only [step, load, List.mem_append, List.mem_singleton] at hr
      rcases hr with hr | hr
      · exact hl r hr
      · exact hr
    · simp [allowed, hu, isUpdate] at hal
  | save =>
    have hnil : s.server = [] := by simpa [allowed] using hal
    refine ⟨?_, Or.inr ?_, ?_⟩
    · simpa [step, save, getValue, notify, record] using hn
    · simp [step, save, getValue, notify, record, hnil]
    · intro xml
      have := hi xml
      simpa [step, save, getValue, notify, record, lastSynced, lastSome, editedSinceSynced,
        editedSince, List.foldl_append, Effect.synced, Effect.isEdit] using this
  | cancel =>
    refine ⟨?_, ?_, ?_⟩
    · simpa [step, cancel, notify, record] using hn
    · simpa [step, cancel, notify, record] using hp
    · intro xml
      have := hi xml
      simpa [step, cancel, notify, record, lastSynced, lastSome, editedSinceSynced,
        editedSince, List.foldl_append, Effect.synced, Effect.isEdit] using this
  | edit t =>
    refine ⟨?_, Or.inl ?_, ?_⟩
    · simp [step, authorEdit, record, normalizeNewlines_idem]
    · rcases hp with hl | hu
      · simpa [step, authorEdit, record] using hl
      · simp [allowed, hu, isUpdate] at hal
    · intro xml
      simp [step, authorEdit, record, lastSynced, lastSome, editedSinceSynced, editedSince,
        List.foldl_append, Effect.synced, Effect.isEdit]
  | loadXmlSettled k outcome =>
    cases hg : s.server[k]? with
    | none => simpa [step, loadXmlSettled, hg] using ⟨hn, hp, hi⟩
    | some r =>
      cases r with
      | updateXml x => simpa [step, loadXmlSettled, hg] using ⟨hn, hp, hi⟩
      | loadXml =>
        have hl : ∀ r ∈ s.server.eraseIdx k, r = Request.loadXml := by
          rcases hp with hl | hu
          · exact fun r hr => hl r (List.mem_of_mem_eraseIdx hr)
          · rw [hu] at hg
            cases k with
            | zero => simp at hg
            | succ k => simp at hg
        cases outcome with
        | resolved v =>
          refine ⟨?_, Or.inl ?_, ?_⟩
          · simp [step, loadXmlSettled, hg, record, Promise.done, Promise.fail, setValue,
              normalizeNewlines_idem]
          · simpa [step, loadXmlSettled, hg, record, Promise.done, Promise.fail, setValue]
              using hl
          · intro xml
            simp [step, loadXmlSettled, hg, record, Promise.done, Promise.fail, setValue,
              lastSynced, lastSome, editedSinceSynced, editedSince, List.foldl_append,
              Effect.synced, Effect.isEdit]
            intro hx
            rw [hx]
        | rejected msg =>
          refine ⟨?_, Or.inl ?_, ?_⟩
          · simpa [step, loadXmlSettled, hg, record, Promise.done, Promise.fail, showError,
              notify] using hn
          · simpa [step, loadXmlSettled, hg, record, Promise.done, Promise.fail, showError,
              notify] using hl
          · intro xml
            have := hi xml
            simpa [step, loadXmlSettled, hg, record, Promise.done, Promise.fail, showError,
              notify, lastSynced, lastSome, editedSinceSynced, editedSince,
              List.foldl_append, Effect.synced, Effect.isEdit] using this
  | updateXmlSettled k outcome =>
    cases hg : s.server[k]? with
    | none => simpa [step, updateXmlSettled, hg] using ⟨hn, hp, hi⟩
    | some r =>
      cases r with
      | loadXml => simpa [step, updateXmlSettled, hg] using ⟨hn, hp, hi⟩
      | updateXml x =>
        have hu : s.server = [Request.updateXml s.codeBox] := by
          rcases hp with hl | hu
          · exact absurd (hl _ (List.getElem?_mem hg)) (by simp)
          · exact hu
        have hk : k = 0 ∧ x = s.codeBox := by
          rw [hu] at hg
          cases k with
          | zero => simpa using hg.symm
          | succ k => simp at hg
        obtain ⟨rfl, rfl⟩ := hk
        cases outcome with
        | resolved u =>
          refine ⟨?_, Or.inl ?_, ?_⟩
          · simpa [step, updateXmlSettled, hg, load, record, Promise.done, Promise.fail,
              notify] using hn
          · simp [step, updateXmlSettled, hg, hu, load, record, Promise.done, Promise.fail,
              notify]
          · intro xml
            simp [step, updateXmlSettled, hg, load, record, Promise.done, Promise.fail,
              notify, lastSynced, lastSome, editedSinceSynced, editedSince,
              List.foldl_append, Effect.synced, Effect.isEdit]
            intro hx
            rw [← hx, hn]
        | rejected msg =>
          refine ⟨?_, Or.inl ?_, ?_⟩
          · simpa [step, updateXmlSettled, hg, record, Promise.done, Promise.fail, showError,
              notify] using hn
          · simp [step, updateXmlSettled, hg, hu, record, Promise.done, Promise.fail,
              showError, notify]
          · intro xml
            have := hi xml
            simpa [step, updateXmlSettled, hg, record, Promise.done, Promise.fail, showError,
              notify, lastSynced, lastSome, editedSinceSynced, editedSince,
              List.foldl_append, Effect.synced, Effect.isEdit] using this

/-- A sequence of events that respect the requests in flight keeps the
session coherent. -/
theorem run_coherent (evs : List Event) (s : Session) (ho : orderly evs s = true)
    (h : Coherent s) : Coherent (run evs s) := by
  unfold run
  induction evs generalizing s with
  | nil => simpa using h
  | cons e evs ih =>
    simp only [orderly, Bool.and_eq_true] at ho
    exact ih _ ho.2 (step_coherent s e ho.1 h)

end InFlight

/-- C7, as stated, fails: in the example session, where every request
settles before the next event, the author did not edit after the last call to
the server completed, the last string saved to the server is `b`, and yet the
last string the controller wrote to the widget is `a` and the widget holds
`c`. -/
theorem unsavedSession_out_of_sync :
    editedSinceRemote unsavedSession.log = false ∧
    lastSynced unsavedSession.log = some "b" ∧
    lastWritten unsavedSession.log = some "a" ∧
    unsavedSession.codeBox = "c" ∧
    lastWritten unsavedSession.log ≠ lastSynced unsavedSession.log ∧
    some unsavedSession.codeBox ≠ lastSynced unsavedSession.log := by
  decide

/-- The log of the example session, in which no two requests overlap. -/
theorem unsavedSession_log :
    unsavedSession.log =
      [Effect.loadXml (.resolved "a"), Effect.setValue "a", Effect.edit "b",
       Effect.notify "save" [("state", "start")], Effect.getValue,
       Effect.updateXml "b" (.resolved ()), Effect.notify "save" [("state", "end")],
       Effect.loadXml (.rejected "down"), Effect.notify "error" [("msg", "down")],
       Effect.edit "c", Effect.notify "save" [("state", "start")], Effect.getValue,
       Effect.updateXml "c" (.rejected "busy"), Effect.notify "error" [("msg", "busy")]] := by
  decide

/-- Requests that overlap break the invariant without any edit: in the
example session `save()` is called while the `loadXml` of the page load is in
flight; in the end the widget holds `old`, the string loaded, while the last
string successfully saved is `init`. -/
theorem overlappedSession_out_of_sync :
    InFlight.orderly
      [.load, .save, .loadXmlSettled 0 (.resolved "old"),
       .updateXmlSettled 0 (.resolved ()), .loadXmlSettled 0 (.rejected "down")]
      ⟨[], "init", []⟩ = false ∧
    editedSinceSynced overlappedSession.log = false ∧
    lastSynced overlappedSession.log = some "init" ∧
    overlappedSession.codeBox = "old" := by
  decide

/-- C7, amended: start with no request in flight, no call to the server
resolved yet and a widget that holds text with `\n` line endings, as a
widget does, and let calls of `load()`, `save()` and `cancel()`, edits of the
author and settlements of the requests in flight, with any outcomes, follow
in any order in which `save()` is called only while no request is in flight,
and `load()` is called and the author edits only while no `updateXml` is in
flight.  When a call to the server has resolved and the author did not edit
since the last one that did, the widget holds the last string loaded from or
successfully saved to the server, with `\n` line endings. -/
theorem widget_in_sync (evs : List InFlight.Event) (s : Session)
    (hidle : s.server = [])
    (hlines : normalizeNewlines s.codeBox = s.codeBox)
    (h0 : lastSynced s.log = none)
    (ho : InFlight.orderly evs s = true)
    (xml : String)
    (hs : lastSynced (InFlight.run evs s).log = some xml)
    (he : editedSinceSynced (InFlight.run evs s).log = false) :
    (InFlight.run evs s).codeBox = normalizeNewlines xml := by
  have hinit : InFlight.Coherent s := by
    refine ⟨hlines, Or.inl ?_, ?_⟩
    · intro r hr
      rw [hidle] at hr
      exact absurd hr (List.not_mem_nil r)
    · intro v hv
      rw [h0] at hv
      exact absurd hv (by simp)
  exact (InFlight.run_coherent evs s ho hinit).2.2 xml hs he

/-- Witness of C7, amended: `load()` resolves with two lines separated by a
Windows line ending, the author types `b`, `save()` succeeds and its reload
is rejected; the widget holds `b`, the string saved. -/
theorem widget_in_sync_witness :
    (⟨[], "", []⟩ : Session).server = [] ∧
    normalizeNewlines (⟨[], "", []⟩ : Session).codeBox = (⟨[], "", []⟩ : Session).codeBox ∧
    lastSynced (⟨[], "", []⟩ : Session).log = none ∧
    InFlight.orderly
      [.load, .loadXmlSettled 0 (.resolved "a\r\na"), .edit "b", .save,
       .updateXmlSettled 0 (.resolved ()), .loadXmlSettled 0 (.rejected "down")]
      ⟨[], "", []⟩ = true ∧
    lastSynced (InFlight.run
      [.load, .loadXmlSettled 0 (.resolved "a\r\na"), .edit "b", .save,
       .updateXmlSettled 0 (.resolved ()), .loadXmlSettled 0 (.rejected "down")]
      ⟨[], "", []⟩).log = some "b" ∧
    editedSinceSynced (InFlight.run
      [.load, .loadXmlSettled 0 (.resolved "a\r\na"), .edit "b", .save,
       .updateXmlSettled 0 (.resolved ()), .loadXmlSettled 0 (.rejected "down")]
      ⟨[], "", []⟩).log = false ∧
    (InFlight.run
      [.load, .loadXmlSettled 0 (.resolved "a\r\na"), .edit "b", .save,
       .updateXmlSettled 0 (.resolved ()), .loadXmlSettled 0 (.rejected "down")]
      ⟨[], "", []⟩).codeBox = normalizeNewlines "b" :=
  ⟨rfl, by decide, rfl, by decide, by decide, by decide,
    widget_in_sync
      [.load, .loadXmlSettled 0 (.resolved "a\r\na"), .edit "b", .save,
       .updateXmlSettled 0 (.resolved ()), .loadXmlSettled 0 (.rejected "down")]
      ⟨[], "", []⟩ rfl (by decide) rfl (by decide) "b" (by decide) (by decide)⟩

/-- After a `load()` that resolves with a Windows line ending and no edit,
the widget holds the string loaded with a `\n` line ending. -/
theorem loaded_session_newlines :
    lastSynced (InFlight.run [.load, .loadXmlSettled 0 (.resolved "a\r\na")]
      ⟨[], "", []⟩).log = some "a\r\na" ∧
    (InFlight.run [.load, .loadXmlSettled 0 (.resolved "a\r\na")]
      ⟨[], "", []⟩).codeBox = "a\na" := by
  decide

end OpenAssessment
